import Mathlib

/-!
Shallow embedding of the sonar-demo repository: a fetcher notebook that
downloads ten monthly MODIS rasters, and a joiner notebook that attaches
raster-sampled sea-surface-temperature and chlorophyll values to sonar
survey tables.  Machine floats are modelled as exact rationals (the code
only compares against and multiplies by exact decimal constants); pandas
dataframes are modelled as ordered association lists of named columns.
-/

namespace Sonar

/-- Errors the Python code can raise, by kind. -/
inductive Err : Type
  | indexError
  | valueError (msg : String)
  | assertionError
  | keyError (key : String)
  | attributeError (name : String)
  | rasterioError (path : String)
deriving DecidableEq

/-- A dataframe cell: a numeric value, the missing-value marker NaN, or a
string (dates and times are read from CSV as strings). -/
inductive Cell : Type
  | num (q : ℚ)
  | nan
  | str (s : String)
deriving DecidableEq

/-- A pandas dataframe: a row count and an ordered list of named columns. -/
structure DataFrame : Type where
  nrow : Nat
  cols : List (String × List Cell)
deriving DecidableEq

instance {ε α : Type} [DecidableEq ε] [DecidableEq α] : DecidableEq (Except ε α) := fun x y =>
  match x, y with
  | .ok a, .ok b =>
    if h : a = b then isTrue (by rw [h])
    else isFalse (by intro hc; cases hc; exact h rfl)
  | .error a, .error b =>
    if h : a = b then isTrue (by rw [h])
    else isFalse (by intro hc; cases hc; exact h rfl)
  | .ok _, .error _ => isFalse (by intro hc; cases hc)
  | .error _, .ok _ => isFalse (by intro hc; cases hc)

/-- Well-formedness: every column holds exactly `nrow` cells. -/
def DataFrame.WF (df : DataFrame) : Prop :=
  ∀ c ∈ df.cols, c.2.length = df.nrow

instance (df : DataFrame) : Decidable df.WF := by
  unfold DataFrame.WF; infer_instance

/-- First-match lookup in an association list keyed by strings. -/
def alookup {β : Type} : List (String × β) → String → Option β
  | [], _ => none
  | c :: cs, n => if c.1 = n then some c.2 else alookup cs n

/-- Look up a column of a dataframe by name. -/
def getCol (df : DataFrame) (name : String) : Option (List Cell) :=
  alookup df.cols name

/-- Column membership test. -/
def hasCol (df : DataFrame) (name : String) : Bool :=
  (getCol df name).isSome

/-- Helper for `firstUnique`: keep elements not seen before, in order. -/
def firstUniqueAux {α : Type} [DecidableEq α] : List α → List α → List α
  | _, [] => []
  | seen, a :: as =>
    if a ∈ seen then firstUniqueAux seen as
    else a :: firstUniqueAux (a :: seen) as

/-- Order-preserving deduplication keeping first occurrences, as
`pandas.Series.unique` does. -/
def firstUnique {α : Type} [DecidableEq α] (l : List α) : List α :=
  firstUniqueAux [] l

/-- Characters removed by Python's `str.strip()`. -/
def isPySpace (c : Char) : Bool :=
  c = ' ' || c = '\t' || c = '\n' || c = '\r' || c = '\x0b' || c = '\x0c'

/-- Python `str.strip()`: drop surrounding whitespace. -/
def pyStrip (s : String) : String :=
  String.mk (((s.toList.dropWhile isPySpace).reverse.dropWhile isPySpace).reverse)

/-- Gregorian leap-year test, as in Python's `datetime`. -/
def isLeap (y : Nat) : Bool :=
  y % 4 = 0 && (y % 100 ≠ 0 || y % 400 = 0)

/-- Number of days in a month, as validated by `datetime`. -/
def daysInMonth (y m : Nat) : Nat :=
  if m = 2 then (if isLeap y then 29 else 28)
  else if m = 4 || m = 6 || m = 9 || m = 11 then 30
  else 31

/-- Split a character list at every occurrence of a separator character, as
Python's `str.split` with a one-character separator. -/
def splitOnChar (sep : Char) : List Char → List (List Char)
  | [] => [[]]
  | c :: cs =>
    match splitOnChar sep cs, decide (c = sep) with
    | r, true => [] :: r
    | [], false => [[c]]
    | h :: t, false => (c :: h) :: t

/-- Read a nonempty all-digit character list as a decimal number. -/
def digitsToNat? (cs : List Char) : Option Nat :=
  if cs ≠ [] ∧ cs.all Char.isDigit
  then some (cs.foldl (fun n c => 10 * n + (c.toNat - 48)) 0)
  else none

/-- `datetime.datetime.strptime(s, "%Y-%m-%d")`: a four-digit year, a one- or
two-digit month 1..12, and a one- or two-digit day valid for that month,
separated by hyphens, consuming the whole string.  Returns (year, month, day). -/
def parseDate (s : String) : Option (Nat × Nat × Nat) :=
  match splitOnChar '-' s.toList with
  | [ys, ms, ds] =>
    match digitsToNat? ys, digitsToNat? ms, digitsToNat? ds with
    | some y, some m, some d =>
      if ys.length = 4 ∧ 1 ≤ y ∧ 1 ≤ ms.length ∧ ms.length ≤ 2 ∧ 1 ≤ m ∧ m ≤ 12
         ∧ 1 ≤ ds.length ∧ ds.length ≤ 2 ∧ 1 ≤ d ∧ d ≤ daysInMonth y m
      then some (y, m, d) else none
    | _, _, _ => none
  | _ => none

/-- `find_month` from the joiner notebook: take the first unique value of the
`Ping_date` column, strip it, parse it as `%Y-%m-%d`, and return the month. -/
def find_month (df : DataFrame) : Except Err Nat :=
  match getCol df "Ping_date" with
  | none => .error (.attributeError "Ping_date")
  | some col =>
    match (firstUnique col).head? with
    | none => .error .indexError
    | some (Cell.str s) =>
      match parseDate (pyStrip s) with
      | some (_, m, _) => .ok m
      | none => .error (.valueError s)
    | some _ => .error (.attributeError "strip")

/-- The `month_dict` lookup table of `get_raster_path`, keyed by the string
form of the month number. -/
def month_dict (k : String) : Option String :=
  match k with
  | "5" => some "may"
  | "6" => some "jun"
  | "7" => some "jul"
  | "8" => some "aug"
  | "9" => some "sep"
  | _ => none

/-- `os.path.join` of two relative components (POSIX). -/
def osPathJoin2 (a b : String) : String := a ++ "/" ++ b

/-- `os.path.join` of three relative components (POSIX). -/
def osPathJoin (a b c : String) : String := a ++ "/" ++ b ++ "/" ++ c

/-- The body of `get_raster_path` after the month has been inferred: assert
the variable token, look the month up in `month_dict` (a `KeyError` if
absent), and join the file name onto `data/modis`. -/
def get_raster_path_month (month : Nat) (var : String) : Except Err String :=
  if var = "chlor_a" ∨ var = "sst" then
    match month_dict (toString month) with
    | some abbr => .ok (osPathJoin "data" "modis" (abbr ++ "_2013_" ++ var ++ ".nc"))
    | none => .error (.keyError (toString month))
  else .error .assertionError

/-- `get_raster_path` from the joiner notebook: infer the month from the
dataframe, then resolve the raster path for the requested variable. -/
def get_raster_path (df : DataFrame) (var : String) : Except Err String :=
  match find_month df with
  | .error e => .error e
  | .ok m => get_raster_path_month m var

/-- Read a coordinate cell as a number (`.values` feeding `src.sample`). -/
def cellFloat : Cell → Except Err ℚ
  | .num q => .ok q
  | _ => .error (.valueError "could not convert cell to float")

/-- Read a whole column of coordinates as numbers. -/
def colFloats : List Cell → Except Err (List ℚ)
  | [] => .ok []
  | c :: cs =>
    match cellFloat c, colFloats cs with
    | .ok q, .ok qs => .ok (q :: qs)
    | .error e, _ => .error e
    | _, .error e => .error e

/-- The no-data translation of `extract_raster`: a sampled value exactly
equal to -32767.0 becomes NaN, every other value is kept. -/
def translateSentinel (q : ℚ) : Cell :=
  if q = (-32767 : ℚ) then Cell.nan else Cell.num q

/-- Sample the raster at each (longitude, latitude) pair and translate the
no-data sentinel, as the body of `extract_raster` does. -/
def sampleVals (sample : ℚ → ℚ → ℚ) (xs ys : List ℚ) : List Cell :=
  (xs.zip ys).map (fun p => translateSentinel (sample p.1 p.2))

/-- Pandas column assignment `dataframe[newcol] = vals`: the value list must
match the row count; an existing column is replaced in place, a new one is
appended at the end. -/
def setCol (df : DataFrame) (name : String) (vals : List Cell) : Except Err DataFrame :=
  if vals.length = df.nrow then
    if hasCol df name then
      .ok { df with cols := df.cols.map (fun c => if c.1 = name then (name, vals) else c) }
    else
      .ok { df with cols := df.cols ++ [(name, vals)] }
  else .error (.valueError "Length of values does not match length of index")

/-- `extract_raster` from the joiner notebook.  The raster universe is a
function `env` from the full `NETCDF:<path>:<subdataset>` string to the
nearest-cell sampling function of that raster (None when opening fails). -/
def extract_raster (env : String → Option (ℚ → ℚ → ℚ)) (df : DataFrame)
    (path : String) (newcol : String) : Except Err DataFrame :=
  match env ("NETCDF:" ++ path ++ ":" ++ newcol) with
  | none => .error (.rasterioError ("NETCDF:" ++ path ++ ":" ++ newcol))
  | some sample =>
    match getCol df "Longitude" with
    | none => .error (.attributeError "Longitude")
    | some xcol =>
      match getCol df "Latitude" with
      | none => .error (.attributeError "Latitude")
      | some ycol =>
        match colFloats xcol, colFloats ycol with
        | .ok xs, .ok ys => setCol df newcol (sampleVals sample xs ys)
        | .error e, _ => .error e
        | _, .error e => .error e

/-- The exact SST scale factor of the joiner notebook. -/
def sstScale : ℚ := 0.0049999999

/-- Multiply a numeric cell by a constant; NaN stays NaN. -/
def scaleCell (k : ℚ) : Cell → Cell
  | .num q => .num (q * k)
  | .nan => .nan
  | .str s => .str s

/-- Pandas `dataframe[name] *= k`: a `KeyError` when the column is absent,
otherwise an in-place scaling of that column. -/
def mulCol (df : DataFrame) (name : String) (k : ℚ) : Except Err DataFrame :=
  match getCol df name with
  | none => .error (.keyError name)
  | some _ =>
    .ok { df with cols := df.cols.map (fun c => if c.1 = name then (c.1, c.2.map (scaleCell k)) else c) }

/-- Pandas `dataframe.drop(columns=[name])`: a `KeyError` when the column is
absent, otherwise the dataframe without that column. -/
def dropCol (df : DataFrame) (name : String) : Except Err DataFrame :=
  match getCol df name with
  | none => .error (.keyError name)
  | some _ => .ok { df with cols := df.cols.filter (fun c => !(c.1 == name)) }

/-- The per-variable loop of `augment_df`: resolve the raster path for the
current dataframe, then extract that variable into a new column. -/
def augmentLoop (env : String → Option (ℚ → ℚ → ℚ)) :
    List String → DataFrame → Except Err DataFrame
  | [], df => .ok df
  | v :: vs, df =>
    match get_raster_path df v with
    | .error e => .error e
    | .ok path =>
      match extract_raster env df path v with
      | .error e => .error e
      | .ok df2 => augmentLoop env vs df2

/-- `augment_df` from the joiner notebook, applied to the dataframe read
from the CSV file: extract each requested variable, scale the `sst` column
by `sstScale`, and drop the `Unnamed: 0` index column. -/
def augment_df (env : String → Option (ℚ → ℚ → ℚ)) (df0 : DataFrame)
    (vars : List String) : Except Err DataFrame :=
  match augmentLoop env vars df0 with
  | .error e => .error e
  | .ok df1 =>
    match mulCol df1 "sst" sstScale with
    | .error e => .error e
    | .ok df2 => dropCol df2 "Unnamed: 0"

/-- `multiprocessing.Pool.map`: apply `f` to every input in order; any raised
error propagates and fails the whole batch. -/
def poolMap (f : DataFrame → Except Err DataFrame) :
    List DataFrame → Except Err (List DataFrame)
  | [] => .ok []
  | d :: ds =>
    match f d, poolMap f ds with
    | .ok r, .ok rs => .ok (r :: rs)
    | .error e, _ => .error e
    | _, .error e => .error e

/-- Concatenate a list of lists in order. -/
def concatAll {α : Type} : List (List α) → List α
  | [] => []
  | l :: ls => l ++ concatAll ls

/-- The column a dataframe contributes to `pd.concat` under a name: its own
column when present, else a NaN fill of its row count. -/
def colOrFill (df : DataFrame) (n : String) : List Cell :=
  match getCol df n with
  | some col => col
  | none => List.replicate df.nrow Cell.nan

/-- The concatenated column of `pd.concat` for one name. -/
def concatColumn (dfs : List DataFrame) (n : String) : List Cell :=
  concatAll (dfs.map (fun df => colOrFill df n))

/-- Column names of `pd.concat`: first-appearance order over all inputs. -/
def allNames (dfs : List DataFrame) : List String :=
  firstUnique (concatAll (dfs.map (fun df => df.cols.map Prod.fst)))

/-- `pd.concat`: stack the input dataframes, aligning columns by name and
filling missing columns with NaN. -/
def pdConcat (dfs : List DataFrame) : DataFrame :=
  { nrow := (dfs.map DataFrame.nrow).sum,
    cols := (allNames dfs).map (fun n => (n, concatColumn dfs n)) }

/-- The `data/modis` dataset directory of the fetcher notebook. -/
def ncdf_dir : String := osPathJoin2 "data" "modis"

/-- The fixed URL mapping of the fetcher notebook. -/
def urls : List (String × String) := [
  ("may_2013_sst", "https://oceandata.sci.gsfc.nasa.gov/cgi/getfile/T20131212013151.L3m_MO_SST_sst_4km.nc"),
  ("jun_2013_sst", "https://oceandata.sci.gsfc.nasa.gov/cgi/getfile/T20131522013181.L3m_MO_SST_sst_4km.nc"),
  ("jul_2013_sst", "https://oceandata.sci.gsfc.nasa.gov/cgi/getfile/T20131822013212.L3m_MO_SST_sst_4km.nc"),
  ("aug_2013_sst", "https://oceandata.sci.gsfc.nasa.gov/cgi/getfile/T20132132013243.L3m_MO_SST_sst_4km.nc"),
  ("sep_2013_sst", "https://oceandata.sci.gsfc.nasa.gov/cgi/getfile/T20132442013273.L3m_MO_SST_sst_4km.nc"),
  ("may_2013_chlor_a", "https://oceandata.sci.gsfc.nasa.gov/cgi/getfile/T20131212013151.L3m_MO_CHL_chlor_a_4km.nc"),
  ("jun_2013_chlor_a", "https://oceandata.sci.gsfc.nasa.gov/cgi/getfile/T20131522013181.L3m_MO_CHL_chlor_a_4km.nc"),
  ("jul_2013_chlor_a", "https://oceandata.sci.gsfc.nasa.gov/cgi/getfile/T20131822013212.L3m_MO_CHL_chlor_a_4km.nc"),
  ("aug_2013_chlor_a", "https://oceandata.sci.gsfc.nasa.gov/cgi/getfile/T20132132013243.L3m_MO_CHL_chlor_a_4km.nc"),
  ("sep_2013_chlor_a", "https://oceandata.sci.gsfc.nasa.gov/cgi/getfile/T20132442013273.L3m_MO_CHL_chlor_a_4km.nc")]

/-- The local file path the fetcher writes for a logical dataset name:
`os.path.join(ncdf_dir, key + ".nc")`. -/
def fetchPath (key : String) : String := osPathJoin2 ncdf_dir (key ++ ".nc")

/-- `os.path.basename` of a POSIX path. -/
def basename (p : String) : String :=
  String.mk ((splitOnChar '/' p.toList).getLastD [])

/-- The local filesystem as the fetcher sees it: a set of directories and a
map from file paths to contents. -/
structure FS : Type where
  dirs : List String
  files : List (String × String)
deriving DecidableEq

/-- The directory-creation cell: `os.makedirs` only when the directory does
not exist yet. -/
def ensureDir (fs : FS) (d : String) : FS :=
  if d ∈ fs.dirs then fs else { fs with dirs := d :: fs.dirs }

/-- `open(file_name, "wb")` followed by `shutil.copyfileobj`: overwrite the
file at `p` with the given bytes. -/
def writeFile (fs : FS) (p content : String) : FS :=
  { fs with files := (p, content) :: fs.files.filter (fun c => !(c.1 == p)) }

/-- Contents of a file, if present. -/
def readFile (fs : FS) (p : String) : Option String :=
  alookup fs.files p

/-- The download loop of the fetcher: for each (key, url) entry in order,
fetch the url (`none` models a network failure, which raises and aborts the
rest of the batch) and write the bytes to `fetchPath key`.  Returns the
resulting filesystem and whether the whole batch completed. -/
def downloadAll (net : String → Option String) (fs : FS) :
    List (String × String) → FS × Bool
  | [] => (fs, true)
  | (key, url) :: rest =>
    match net url with
    | none => (fs, false)
    | some data => downloadAll net (writeFile fs (fetchPath key) data) rest

/-- The whole fetcher notebook: ensure `data/modis` exists, then download
every entry of `urls` sequentially. -/
def runFetcher (net : String → Option String) (fs0 : FS) : FS × Bool :=
  downloadAll net (ensureDir fs0 ncdf_dir) urls

/-- The month-number to month-abbreviation table as the specification states
it (5 through 9 mapped to may through sep), used to compare the resolved
path against the specified string. -/
def specMonthAbbr : Nat → String
  | 5 => "may"
  | 6 => "jun"
  | 7 => "jul"
  | 8 => "aug"
  | 9 => "sep"
  | _ => ""

/-! ### Lemmas about association-list lookup -/

theorem alookup_mem {β : Type} {l : List (String × β)} {n : String} {v : β}
    (h : alookup l n = some v) : (n, v) ∈ l := by
  induction l with
  | nil => simp [alookup] at h
  | cons c cs ih =>
    by_cases hc : c.1 = n
    · simp only [alookup, hc, if_pos] at h
      cases h
      subst hc
      exact List.mem_cons_self _ _
    · simp only [alookup, hc, if_neg, not_false_iff] at h
      exact List.mem_cons_of_mem _ (ih h)

theorem alookup_append_some {β : Type} {l : List (String × β)} {n : String} {v : β}
    (l2 : List (String × β)) (h : alookup l n = some v) :
    alookup (l ++ l2) n = some v := by
  induction l with
  | nil => simp [alookup] at h
  | cons c cs ih =>
    by_cases hc : c.1 = n
    · simp only [alookup, hc, if_pos] at h ⊢
      exact h
    · simp only [alookup, hc, if_neg, not_false_iff] at h ⊢
      exact ih h

theorem alookup_append_none {β : Type} {l : List (String × β)} {n : String}
    (l2 : List (String × β)) (h : alookup l n = none) :
    alookup (l ++ l2) n = alookup l2 n := by
  induction l with
  | nil => rfl
  | cons c cs ih =>
    by_cases hc : c.1 = n
    · simp [alookup, hc] at h
    · simp only [alookup, hc, if_neg, not_false_iff] at h ⊢
      exact ih h

theorem alookup_filter_ne {β : Type} {l : List (String × β)} {n q : String}
    (h : q ≠ n) : alookup (l.filter (fun c => !(c.1 == n))) q = alookup l q := by
  induction l with
  | nil => rfl
  | cons c cs ih =>
    by_cases hc : c.1 = n
    · have : (fun c : String × β => !(c.1 == n)) c = false := by
        simp [hc]
      rw [List.filter_cons_of_neg (by simp [this])]
      have hcq : ¬ c.1 = q := by rw [hc]; exact fun hh => h hh.symm
      simp only [alookup, hcq, if_neg, not_false_iff]
      exact ih
    · rw [List.filter_cons_of_pos (by simp [hc])]
      simp only [alookup]
      by_cases hq : c.1 = q
      · simp [hq]
      · simp only [hq, if_neg, not_false_iff]
        exact ih

theorem alookup_filter_self {β : Type} {l : List (String × β)} {n : String} :
    alookup (l.filter (fun c => !(c.1 == n))) n = none := by
  induction l with
  | nil => rfl
  | cons c cs ih =>
    by_cases hc : c.1 = n
    · rw [List.filter_cons_of_neg (by simp [hc])]
      exact ih
    · rw [List.filter_cons_of_pos (by simp [hc])]
      simp only [alookup, hc, if_neg, not_false_iff]
      exact ih

theorem alookup_replace_eq {l : List (String × List Cell)} {n : String}
    (vals : List Cell) :
    alookup (l.map (fun c => if c.1 = n then (n, vals) else c)) n
      = (alookup l n).map (fun _ => vals) := by
  induction l with
  | nil => rfl
  | cons c cs ih =>
    by_cases hc : c.1 = n
    · simp [alookup, hc]
    · simp [alookup, hc, ih]

theorem alookup_replace_ne {l : List (String × List Cell)} {n q : String}
    (vals : List Cell) (h : q ≠ n) :
    alookup (l.map (fun c => if c.1 = n then (n, vals) else c)) q
      = alookup l q := by
  induction l with
  | nil => rfl
  | cons c cs ih =>
    by_cases hc : c.1 = n
    · simp [alookup, hc, Ne.symm h, ih]
    · by_cases hq : c.1 = q
      · simp [alookup, hc, hq, h]
      · simp [alookup, hc, hq, ih]

theorem alookup_scale_eq {l : List (String × List Cell)} {n : String} (k : ℚ) :
    alookup (l.map (fun c => if c.1 = n then (c.1, c.2.map (scaleCell k)) else c)) n
      = (alookup l n).map (fun col => col.map (scaleCell k)) := by
  induction l with
  | nil => rfl
  | cons c cs ih =>
    by_cases hc : c.1 = n
    · simp [alookup, hc]
    · simp [alookup, hc, ih]

theorem alookup_scale_ne {l : List (String × List Cell)} {n q : String} (k : ℚ)
    (h : q ≠ n) :
    alookup (l.map (fun c => if c.1 = n then (c.1, c.2.map (scaleCell k)) else c)) q
      = alookup l q := by
  induction l with
  | nil => rfl
  | cons c cs ih =>
    by_cases hc : c.1 = n
    · simp [alookup, hc, Ne.symm h, ih]
    · by_cases hq : c.1 = q
      · simp [alookup, hc, hq, h]
      · simp [alookup, hc, hq, ih]

theorem fst_map_replace {l : List (String × List Cell)} {n : String}
    (vals : List Cell) :
    (l.map (fun c => if c.1 = n then (n, vals) else c)).map Prod.fst
      = l.map Prod.fst := by
  induction l with
  | nil => rfl
  | cons c cs ih =>
    by_cases hc : c.1 = n
    · simp [hc, ih]
    · simp [hc, ih]

theorem fst_map_scale {l : List (String × List Cell)} {n : String} (k : ℚ) :
    (l.map (fun c => if c.1 = n then (c.1, c.2.map (scaleCell k)) else c)).map Prod.fst
      = l.map Prod.fst := by
  induction l with
  | nil => rfl
  | cons c cs ih =>
    by_cases hc : c.1 = n
    · simp only [List.map_cons, hc, if_pos, ih]
    · simp only [List.map_cons, hc, if_neg, not_false_iff, ih]

/-! ### Specification lemmas for the dataframe operations -/

theorem hasCol_true_iff {df : DataFrame} {n : String} :
    hasCol df n = true ↔ ∃ col, getCol df n = some col := by
  simp [hasCol, Option.isSome_iff_exists]

theorem hasCol_false_iff {df : DataFrame} {n : String} :
    hasCol df n = false ↔ getCol df n = none := by
  cases h : getCol df n <;> simp [hasCol, h]

theorem setCol_ok {df df' : DataFrame} {n : String} {vals : List Cell}
    (h : setCol df n vals = .ok df') :
    vals.length = df.nrow ∧ df'.nrow = df.nrow ∧ getCol df' n = some vals
    ∧ (∀ q, q ≠ n → getCol df' q = getCol df q)
    ∧ (df.WF → df'.WF)
    ∧ (hasCol df n = false → df'.cols = df.cols ++ [(n, vals)])
    ∧ (hasCol df n = true → df'.cols.map Prod.fst = df.cols.map Prod.fst)
    ∧ (∀ q, hasCol df' q = (hasCol df q || (q == n))) := by
  unfold setCol at h
  by_cases hlen : vals.length = df.nrow
  · rw [if_pos hlen] at h
    by_cases hhas : hasCol df n = true
    · rw [if_pos hhas] at h
      obtain ⟨w, hw⟩ := hasCol_true_iff.mp hhas
      have hw2 : alookup df.cols n = some w := hw
      have hself : alookup (df.cols.map (fun c => if c.1 = n then (n, vals) else c)) n
          = some vals := by
        rw [alookup_replace_eq vals, hw2]
        rfl
      have hne : ∀ q, q ≠ n →
          alookup (df.cols.map (fun c => if c.1 = n then (n, vals) else c)) q
            = alookup df.cols q :=
        fun _ hq => alookup_replace_ne vals hq
      cases h
      refine ⟨hlen, rfl, hself, hne, ?_, ?_, fun _ => fst_map_replace vals, ?_⟩
      · intro hwf c hc
        rcases List.mem_map.mp hc with ⟨a, ha, hfa⟩
        by_cases han : a.1 = n
        · rw [if_pos han] at hfa
          rw [← hfa]
          exact hlen
        · rw [if_neg han] at hfa
          rw [← hfa]
          exact hwf a ha
      · intro hcontra
        rw [hcontra] at hhas
        cases hhas
      · intro q
        by_cases hq : q = n
        · subst hq
          show (alookup (df.cols.map (fun c => if c.1 = q then (q, vals) else c)) q).isSome
            = (hasCol df q || (q == q))
          rw [hself]
          simp [hhas]
        · show (alookup (df.cols.map (fun c => if c.1 = n then (n, vals) else c)) q).isSome
            = (hasCol df q || (q == n))
          rw [hne q hq]
          simp [hasCol, getCol, hq]
    · rw [if_neg hhas] at h
      have hhasf : hasCol df n = false := by
        cases hb : hasCol df n
        · rfl
        · exact absurd hb hhas
      have hnone : alookup df.cols n = none := hasCol_false_iff.mp hhasf
      have hself : alookup (df.cols ++ [(n, vals)]) n = some vals := by
        rw [alookup_append_none _ hnone]
        simp [alookup]
      have hne : ∀ q, q ≠ n → alookup (df.cols ++ [(n, vals)]) q = alookup df.cols q := by
        intro q hq
        cases hdq : alookup df.cols q with
        | some w => exact alookup_append_some _ hdq
        | none =>
          rw [alookup_append_none _ hdq]
          simp only [alookup]
          rw [if_neg (fun hh : n = q => hq hh.symm)]
      cases h
      refine ⟨hlen, rfl, hself, hne, ?_, fun _ => rfl, ?_, ?_⟩
      · intro hwf c hc
        rcases List.mem_append.mp hc with hin | hin
        · exact hwf c hin
        · simp at hin
          rw [hin]
          exact hlen
      · intro hcontra
        rw [hcontra] at hhasf
        cases hhasf
      · intro q
        by_cases hq : q = n
        · subst hq
          show (alookup (df.cols ++ [(q, vals)]) q).isSome = (hasCol df q || (q == q))
          rw [hself]
          simp
        · show (alookup (df.cols ++ [(n, vals)]) q).isSome = (hasCol df q || (q == n))
          rw [hne q hq]
          simp [hasCol, getCol, hq]
  · rw [if_neg hlen] at h
    cases h

theorem mulCol_ok {df df' : DataFrame} {n : String} {k : ℚ}
    (h : mulCol df n k = .ok df') :
    ∃ col, getCol df n = some col
    ∧ df'.nrow = df.nrow
    ∧ getCol df' n = some (col.map (scaleCell k))
    ∧ (∀ q, q ≠ n → getCol df' q = getCol df q)
    ∧ df'.cols.map Prod.fst = df.cols.map Prod.fst
    ∧ (∀ q, hasCol df' q = hasCol df q)
    ∧ (df.WF → df'.WF) := by
  unfold mulCol at h
  cases hcol : getCol df n with
  | none => rw [hcol] at h; cases h
  | some col =>
    rw [hcol] at h
    have hcol2 : alookup df.cols n = some col := hcol
    have hself : alookup
        (df.cols.map (fun c => if c.1 = n then (c.1, c.2.map (scaleCell k)) else c)) n
        = some (col.map (scaleCell k)) := by
      rw [alookup_scale_eq k, hcol2]
      rfl
    have hne : ∀ q, q ≠ n →
        alookup (df.cols.map (fun c => if c.1 = n then (c.1, c.2.map (scaleCell k)) else c)) q
          = alookup df.cols q :=
      fun _ hq => alookup_scale_ne k hq
    cases h
    refine ⟨col, rfl, rfl, hself, hne, fst_map_scale k, ?_, ?_⟩
    · intro q
      by_cases hq : q = n
      · subst hq
        show (alookup
          (df.cols.map (fun c => if c.1 = q then (c.1, c.2.map (scaleCell k)) else c)) q).isSome
          = (alookup df.cols q).isSome
        rw [hself, hcol2]
        rfl
      · show (alookup
          (df.cols.map (fun c => if c.1 = n then (c.1, c.2.map (scaleCell k)) else c)) q).isSome
          = (alookup df.cols q).isSome
        rw [hne q hq]
    · intro hwf c hc
      rcases List.mem_map.mp hc with ⟨a, ha, hfa⟩
      by_cases han : a.1 = n
      · rw [if_pos han] at hfa
        rw [← hfa]
        show (a.2.map (scaleCell k)).length = df.nrow
        rw [List.length_map]
        exact hwf a ha
      · rw [if_neg han] at hfa
        rw [← hfa]
        exact hwf a ha

theorem dropCol_ok {df df' : DataFrame} {n : String}
    (h : dropCol df n = .ok df') :
    df'.nrow = df.nrow
    ∧ getCol df' n = none
    ∧ (∀ q, q ≠ n → getCol df' q = getCol df q)
    ∧ df'.cols = df.cols.filter (fun c => !(c.1 == n))
    ∧ (df.WF → df'.WF) := by
  unfold dropCol at h
  cases hcol : getCol df n with
  | none => rw [hcol] at h; cases h
  | some col =>
    rw [hcol] at h
    cases h
    refine ⟨rfl, alookup_filter_self, ?_, rfl, ?_⟩
    · intro q hq
      exact alookup_filter_ne hq
    · intro hwf c hc
      exact hwf c (List.mem_of_mem_filter hc)

theorem extract_raster_ok {env : String → Option (ℚ → ℚ → ℚ)} {df df' : DataFrame}
    {path n : String} (h : extract_raster env df path n = .ok df') :
    ∃ sample xcol ycol xs ys,
      env ("NETCDF:" ++ path ++ ":" ++ n) = some sample
      ∧ getCol df "Longitude" = some xcol ∧ getCol df "Latitude" = some ycol
      ∧ colFloats xcol = .ok xs ∧ colFloats ycol = .ok ys
      ∧ setCol df n (sampleVals sample xs ys) = .ok df' := by
  unfold extract_raster at h
  split at h
  · cases h
  · rename_i sample heq
    split at h
    · cases h
    · rename_i xcol hx
      split at h
      · cases h
      · rename_i ycol hy
        split at h
        · rename_i xs ys hfx hfy
          exact ⟨sample, xcol, ycol, xs, ys, heq, hx, hy, hfx, hfy, h⟩
        · cases h
        · cases h

theorem get_raster_path_ok {df : DataFrame} {v p : String}
    (h : get_raster_path df v = .ok p) :
    (v = "chlor_a" ∨ v = "sst")
    ∧ ∃ m, find_month df = .ok m ∧ get_raster_path_month m v = .ok p := by
  unfold get_raster_path at h
  split at h
  · cases h
  · rename_i m hm
    refine ⟨?_, m, hm, h⟩
    unfold get_raster_path_month at h
    by_cases hv : v = "chlor_a" ∨ v = "sst"
    · exact hv
    · rw [if_neg hv] at h
      cases h

theorem find_month_congr {df df' : DataFrame}
    (h : getCol df' "Ping_date" = getCol df "Ping_date") :
    find_month df' = find_month df := by
  unfold find_month
  rw [h]

theorem augmentLoop_ok {env : String → Option (ℚ → ℚ → ℚ)} :
    ∀ (vs : List String) (df df' : DataFrame),
    augmentLoop env vs df = .ok df' →
    df'.nrow = df.nrow
    ∧ (∀ q, q ≠ "sst" → q ≠ "chlor_a" → getCol df' q = getCol df q)
    ∧ (∀ q, q ∉ vs → hasCol df' q = hasCol df q)
    ∧ (df.WF → df'.WF) := by
  intro vs
  induction vs with
  | nil =>
    intro df df' h
    cases h
    exact ⟨rfl, fun _ _ _ => rfl, fun _ _ => rfl, id⟩
  | cons v vs ih =>
    intro df df' h
    unfold augmentLoop at h
    split at h
    · cases h
    · rename_i path hp
      split at h
      · cases h
      · rename_i df2 hx
        obtain ⟨hnrow, hget, hhas, hwf⟩ := ih df2 df' h
        have hvv : v = "chlor_a" ∨ v = "sst" := (get_raster_path_ok hp).1
        obtain ⟨sample, xcol, ycol, xs, ys, _, _, _, _, _, hset⟩ := extract_raster_ok hx
        obtain ⟨_, hsnrow, _, hsget, hswf, _, _, hshas⟩ := setCol_ok hset
        refine ⟨by rw [hnrow, hsnrow], ?_, ?_, fun hw => hwf (hswf hw)⟩
        · intro q hq1 hq2
          have hqv : q ≠ v := by
            rcases hvv with hv | hv
            · rw [hv]; exact hq2
            · rw [hv]; exact hq1
          rw [hget q hq1 hq2, hsget q hqv]
        · intro q hq
          have hqv : q ≠ v := fun he => hq (he ▸ List.mem_cons_self v vs)
          have hqvs : q ∉ vs := fun hm => hq (List.mem_cons_of_mem _ hm)
          rw [hhas q hqvs, hshas q]
          simp [hqv]

theorem augment_df_ok {env : String → Option (ℚ → ℚ → ℚ)} {df out : DataFrame}
    {vs : List String} (h : augment_df env df vs = .ok out) :
    out.nrow = df.nrow
    ∧ (∀ q, q ≠ "Unnamed: 0" → q ≠ "sst" → q ≠ "chlor_a" → getCol out q = getCol df q)
    ∧ (df.WF → out.WF)
    ∧ getCol out "Unnamed: 0" = none := by
  unfold augment_df at h
  split at h
  · cases h
  · rename_i df1 hL
    split at h
    · cases h
    · rename_i df2 hM
      obtain ⟨hLn, hLget, _, hLwf⟩ := augmentLoop_ok vs df df1 hL
      obtain ⟨col, hMc, hMn, hMself, hMne, hMfst, hMhas, hMwf⟩ := mulCol_ok hM
      obtain ⟨hDn, hDnone, hDne, hDcols, hDwf⟩ := dropCol_ok h
      refine ⟨by rw [hDn, hMn, hLn], ?_, fun hw => hDwf (hMwf (hLwf hw)), hDnone⟩
      intro q hq0 hq1 hq2
      rw [hDne q hq0, hMne q hq1, hLget q hq1 hq2]

theorem parseDate_ok_bounds {s : String} {y m d : Nat}
    (h : parseDate s = some (y, m, d)) : 1 ≤ m ∧ m ≤ 12 := by
  unfold parseDate at h
  split at h
  · split at h
    · split at h
      · rename_i hc
        cases h
        obtain ⟨_, _, _, _, h5, h6, _⟩ := hc
        exact ⟨h5, h6⟩
      · cases h
    · cases h
  · cases h

theorem find_month_ok_bounds {df : DataFrame} {m : Nat}
    (h : find_month df = .ok m) : 1 ≤ m ∧ m ≤ 12 := by
  unfold find_month at h
  split at h
  · cases h
  · split at h
    · cases h
    · split at h
      · rename_i hp
        cases h
        exact parseDate_ok_bounds hp
      · cases h
    · cases h

/-- Claim C4: for every dataframe whose `Ping_date` column's first unique
value, stripped of surrounding whitespace, parses as a `YYYY-MM-DD` date,
`find_month` returns that date's month number — with no requirement that
the column hold only one distinct date, so a table with several distinct
dates is not rejected: only the first unique value is used. -/
theorem find_month_first_unique (df : DataFrame) (col : List Cell) (s : String)
    (y m d : Nat)
    (hcol : getCol df "Ping_date" = some col)
    (hhead : (firstUnique col).head? = some (Cell.str s))
    (hparse : parseDate (pyStrip s) = some (y, m, d)) :
    find_month df = Except.ok m := by
  simp only [find_month, hcol, hhead, hparse]

/-- Dataframe with two distinct dates, used to evaluate `find_month`. -/
def dfTwoDates : DataFrame :=
  { nrow := 2,
    cols := [("Ping_date", [Cell.str "2013-05-22", Cell.str "2013-06-23"])] }

/-- Witness for claim C4: a table holding the two distinct dates 2013-05-22
and 2013-06-23 is not rejected; `find_month` returns 5, the month of the
first unique value. -/
theorem find_month_first_unique_witness : find_month dfTwoDates = Except.ok 5 :=
  find_month_first_unique dfTwoDates
    [Cell.str "2013-05-22", Cell.str "2013-06-23"] "2013-05-22" 2013 5 22
    rfl rfl rfl

/-- Claim C1: when the inferred month is 5..9 and the variable token is
`sst` or `chlor_a`, `get_raster_path` returns exactly the path obtained by
joining `data`, `modis` and `<abbr>_2013_<var>.nc`; for an inferred month
outside 5..9 or any other variable token it raises instead of returning a
path. -/
theorem get_raster_path_resolution (df : DataFrame) (var : String) (m : Nat)
    (hm : find_month df = Except.ok m) :
    ((5 ≤ m ∧ m ≤ 9) ∧ (var = "sst" ∨ var = "chlor_a") →
      get_raster_path df var
        = Except.ok (osPathJoin "data" "modis" (specMonthAbbr m ++ "_2013_" ++ var ++ ".nc")))
    ∧ ((¬(5 ≤ m ∧ m ≤ 9) ∨ (var ≠ "sst" ∧ var ≠ "chlor_a")) →
      ∃ e, get_raster_path df var = Except.error e) := by
  have hpath : get_raster_path df var = get_raster_path_month m var := by
    simp only [get_raster_path, hm]
  obtain ⟨h1, h12⟩ := find_month_ok_bounds hm
  constructor
  · rintro ⟨⟨h5, h9⟩, hvar⟩
    rw [hpath]
    unfold get_raster_path_month
    rw [if_pos (Or.symm hvar)]
    interval_cases m <;> rfl
  · intro hbad
    rw [hpath]
    unfold get_raster_path_month
    by_cases hv : var = "chlor_a" ∨ var = "sst"
    · rw [if_pos hv]
      have hmb : ¬(5 ≤ m ∧ m ≤ 9) := by
        rcases hbad with hb | hb
        · exact hb
        · rcases hv with hva | hva
          · exact absurd hva hb.2
          · exact absurd hva hb.1
      have hnone : month_dict (toString m) = none := by
        interval_cases m <;> first
          | rfl
          | exact absurd (by norm_num) hmb
      rw [hnone]
      exact ⟨_, rfl⟩
    · rw [if_neg hv]
      exact ⟨_, rfl⟩

/-- Dataframe dated in May, used to evaluate `get_raster_path`. -/
def dfMay : DataFrame :=
  { nrow := 1, cols := [("Ping_date", [Cell.str "2013-05-22"])] }

/-- Witness for claim C1: for a May table and the `sst` token the resolved
path is exactly `data/modis/may_2013_sst.nc`. -/
theorem get_raster_path_resolution_witness :
    get_raster_path dfMay "sst"
      = Except.ok (osPathJoin "data" "modis" (specMonthAbbr 5 ++ "_2013_" ++ "sst" ++ ".nc")) :=
  (get_raster_path_resolution dfMay "sst" 5 rfl).1 ⟨⟨by norm_num, by norm_num⟩, Or.inl rfl⟩

/-- Claim C2: in the column `extract_raster` produces, every sampled value
exactly equal to the sentinel -32767.0 is replaced by the missing-value
marker NaN, every other sampled value appears unchanged, and the raw
sentinel never appears in the output column. -/
theorem extract_raster_sentinel (env : String → Option (ℚ → ℚ → ℚ))
    (df df' : DataFrame) (path newcol : String)
    (h : extract_raster env df path newcol = .ok df') :
    ∃ sample xcol ycol xs ys,
      env ("NETCDF:" ++ path ++ ":" ++ newcol) = some sample
      ∧ getCol df "Longitude" = some xcol ∧ getCol df "Latitude" = some ycol
      ∧ colFloats xcol = .ok xs ∧ colFloats ycol = .ok ys
      ∧ getCol df' newcol
          = some ((xs.zip ys).map (fun p =>
              if sample p.1 p.2 = (-32767 : ℚ) then Cell.nan else Cell.num (sample p.1 p.2)))
      ∧ ∀ c ∈ (xs.zip ys).map (fun p =>
              if sample p.1 p.2 = (-32767 : ℚ) then Cell.nan else Cell.num (sample p.1 p.2)),
          c ≠ Cell.num (-32767 : ℚ) := by
  obtain ⟨sample, xcol, ycol, xs, ys, heq, hx, hy, hfx, hfy, hset⟩ := extract_raster_ok h
  obtain ⟨_, _, hself, _, _, _, _, _⟩ := setCol_ok hset
  have hmap : sampleVals sample xs ys = (xs.zip ys).map (fun p =>
      if sample p.1 p.2 = (-32767 : ℚ) then Cell.nan else Cell.num (sample p.1 p.2)) := rfl
  refine ⟨sample, xcol, ycol, xs, ys, heq, hx, hy, hfx, hfy, by rw [hself, hmap], ?_⟩
  intro c hc
  rcases List.mem_map.mp hc with ⟨p, _, hpc⟩
  by_cases hs : sample p.1 p.2 = (-32767 : ℚ)
  · rw [if_pos hs] at hpc
    rw [← hpc]
    intro hcon
    cases hcon
  · rw [if_neg hs] at hpc
    rw [← hpc]
    intro hcon
    injection hcon with hq
    exact hs hq

/-- Raster universe used to evaluate `extract_raster`: sampling returns the
no-data sentinel at longitude 0 and the value 5 elsewhere. -/
def envC2 : String → Option (ℚ → ℚ → ℚ) :=
  fun _ => some (fun x _ => if x = 0 then (-32767 : ℚ) else 5)

/-- Coordinate dataframe used to evaluate `extract_raster`. -/
def dfC2 : DataFrame :=
  { nrow := 2,
    cols := [("Longitude", [Cell.num 0, Cell.num 1]),
             ("Latitude", [Cell.num 3, Cell.num 4])] }

/-- Result of `extract_raster` on `dfC2`: the sentinel sample became NaN and
the other sample passed through. -/
def outC2 : DataFrame :=
  { nrow := 2,
    cols := [("Longitude", [Cell.num 0, Cell.num 1]),
             ("Latitude", [Cell.num 3, Cell.num 4]),
             ("sst", [Cell.nan, Cell.num 5])] }

/-- Witness for claim C2, at a raster whose sample at the first coordinate
is exactly the sentinel. -/
theorem extract_raster_sentinel_witness :
    ∃ sample xcol ycol xs ys,
      envC2 ("NETCDF:" ++ "data/modis/jun_2013_sst.nc" ++ ":" ++ "sst") = some sample
      ∧ getCol dfC2 "Longitude" = some xcol ∧ getCol dfC2 "Latitude" = some ycol
      ∧ colFloats xcol = .ok xs ∧ colFloats ycol = .ok ys
      ∧ getCol outC2 "sst"
          = some ((xs.zip ys).map (fun p =>
              if sample p.1 p.2 = (-32767 : ℚ) then Cell.nan else Cell.num (sample p.1 p.2)))
      ∧ ∀ c ∈ (xs.zip ys).map (fun p =>
              if sample p.1 p.2 = (-32767 : ℚ) then Cell.nan else Cell.num (sample p.1 p.2)),
          c ≠ Cell.num (-32767 : ℚ) :=
  extract_raster_sentinel envC2 dfC2 outC2 "data/modis/jun_2013_sst.nc" "sst" rfl

theorem augment_two_detail {env : String → Option (ℚ → ℚ → ℚ)} {df out : DataFrame}
    (h : augment_df env df ["sst", "chlor_a"] = .ok out) :
    ∃ ps pc sampleS sampleC xcol ycol xs ys dfA dfB df2,
      get_raster_path df "sst" = .ok ps
      ∧ get_raster_path df "chlor_a" = .ok pc
      ∧ env ("NETCDF:" ++ ps ++ ":" ++ "sst") = some sampleS
      ∧ env ("NETCDF:" ++ pc ++ ":" ++ "chlor_a") = some sampleC
      ∧ getCol df "Longitude" = some xcol ∧ getCol df "Latitude" = some ycol
      ∧ colFloats xcol = .ok xs ∧ colFloats ycol = .ok ys
      ∧ setCol df "sst" (sampleVals sampleS xs ys) = .ok dfA
      ∧ setCol dfA "chlor_a" (sampleVals sampleC xs ys) = .ok dfB
      ∧ mulCol dfB "sst" sstScale = .ok df2
      ∧ dropCol df2 "Unnamed: 0" = .ok out := by
  unfold augment_df at h
  split at h
  · cases h
  · rename_i df1 hL
    split at h
    · cases h
    · rename_i df2 hM
      simp only [augmentLoop] at hL
      split at hL
      · cases hL
      · rename_i ps hps
        split at hL
        · cases hL
        · rename_i dfA hxA
          split at hL
          · cases hL
          · rename_i pc hpc
            split at hL
            · cases hL
            · rename_i dfB hxB
              cases hL
              obtain ⟨sampleS, xcolS, ycolS, xsS, ysS, heS, hxS, hyS, hfxS, hfyS, hsetS⟩ :=
                extract_raster_ok hxA
              obtain ⟨_, _, hAself, hAne, _, _, _, _⟩ := setCol_ok hsetS
              obtain ⟨sampleC, xcolC, ycolC, xsC, ysC, heC, hxC, hyC, hfxC, hfyC, hsetC⟩ :=
                extract_raster_ok hxB
              have hLonA : getCol dfA "Longitude" = some xcolS := by
                rw [hAne _ (by decide), hxS]
              have hLatA : getCol dfA "Latitude" = some ycolS := by
                rw [hAne _ (by decide), hyS]
              have hxcEq : xcolC = xcolS := Option.some.inj (hxC.symm.trans hLonA)
              have hycEq : ycolC = ycolS := Option.some.inj (hyC.symm.trans hLatA)
              subst hxcEq
              subst hycEq
              have hxsEq : xsC = xsS := by
                have := hfxC.symm.trans hfxS
                cases this
                rfl
              have hysEq : ysC = ysS := by
                have := hfyC.symm.trans hfyS
                cases this
                rfl
              subst hxsEq
              subst hysEq
              have hgrpC : get_raster_path df "chlor_a" = .ok pc := by
                have hcongr : get_raster_path dfA "chlor_a" = get_raster_path df "chlor_a" := by
                  unfold get_raster_path
                  rw [find_month_congr (hAne "Ping_date" (by decide))]
                rw [← hcongr]
                exact hpc
              exact ⟨ps, pc, sampleS, sampleC, _, _, _, _, _, _, _,
                hps, hgrpC, heS, heC, hxS, hyS, hfxS, hfyS, hsetS, hsetC, hM, h⟩

/-- Claim C3: on the default variable list, the `sst` column of the result
of `augment_df` is exactly the raw sampled column (after sentinel
translation) scaled once by the exact constant 0.0049999999, the `chlor_a`
column is the raw sampled column unscaled, and every other surviving column
is unchanged. -/
theorem sst_scaled_once (env : String → Option (ℚ → ℚ → ℚ)) (df out : DataFrame)
    (h : augment_df env df ["sst", "chlor_a"] = .ok out) :
    ∃ ps pc sampleS sampleC xcol ycol xs ys,
      get_raster_path df "sst" = .ok ps
      ∧ get_raster_path df "chlor_a" = .ok pc
      ∧ env ("NETCDF:" ++ ps ++ ":" ++ "sst") = some sampleS
      ∧ env ("NETCDF:" ++ pc ++ ":" ++ "chlor_a") = some sampleC
      ∧ getCol df "Longitude" = some xcol ∧ getCol df "Latitude" = some ycol
      ∧ colFloats xcol = .ok xs ∧ colFloats ycol = .ok ys
      ∧ getCol out "sst" = some ((sampleVals sampleS xs ys).map (scaleCell sstScale))
      ∧ getCol out "chlor_a" = some (sampleVals sampleC xs ys)
      ∧ (∀ q, q ≠ "sst" → q ≠ "chlor_a" → q ≠ "Unnamed: 0" →
          getCol out q = getCol df q) := by
  obtain ⟨ps, pc, sampleS, sampleC, xcol, ycol, xs, ys, dfA, dfB, df2,
    hps, hpc, heS, heC, hxS, hyS, hfxS, hfyS, hsetS, hsetC, hM, hD⟩ :=
    augment_two_detail h
  obtain ⟨_, _, hAself, hAne, _, _, _, _⟩ := setCol_ok hsetS
  obtain ⟨_, _, hBself, hBne, _, _, _, _⟩ := setCol_ok hsetC
  obtain ⟨colM, hMc, _, hMself, hMne, _, _, _⟩ := mulCol_ok hM
  obtain ⟨_, _, hDne, _, _⟩ := dropCol_ok hD
  have hBsst : getCol dfB "sst" = some (sampleVals sampleS xs ys) := by
    rw [hBne _ (by decide), hAself]
  have hcolM : colM = sampleVals sampleS xs ys := Option.some.inj (hMc.symm.trans hBsst)
  refine ⟨ps, pc, sampleS, sampleC, xcol, ycol, xs, ys,
    hps, hpc, heS, heC, hxS, hyS, hfxS, hfyS, ?_, ?_, ?_⟩
  · rw [hDne _ (by decide), hMself, hcolM]
  · rw [hDne _ (by decide), hMne _ (by decide), hBself]
  · intro q hq1 hq2 hq3
    rw [hDne _ hq3, hMne _ hq1, hBne _ hq2, hAne _ hq1]

/-- Raster universe used to evaluate `augment_df`: every sample is 3. -/
def envC3 : String → Option (ℚ → ℚ → ℚ) := fun _ => some (fun _ _ => (3 : ℚ))

/-- Survey dataframe used to evaluate `augment_df`. -/
def dfC3 : DataFrame :=
  { nrow := 1,
    cols := [("Unnamed: 0", [Cell.num 0]), ("Ping_date", [Cell.str "2013-05-22"]),
             ("Longitude", [Cell.num 1]), ("Latitude", [Cell.num 2])] }

/-- Result of `augment_df` on `dfC3`: the raw sample 3 was scaled once in
the `sst` column and left unscaled in the `chlor_a` column. -/
def outC3 : DataFrame :=
  { nrow := 1,
    cols := [("Ping_date", [Cell.str "2013-05-22"]),
             ("Longitude", [Cell.num 1]), ("Latitude", [Cell.num 2]),
             ("sst", [Cell.num (3 * sstScale)]), ("chlor_a", [Cell.num 3])] }

/-- Witness for claim C3, evaluated on a one-row May table and a constant
raster. -/
theorem sst_scaled_once_witness :
    ∃ ps pc sampleS sampleC xcol ycol xs ys,
      get_raster_path dfC3 "sst" = .ok ps
      ∧ get_raster_path dfC3 "chlor_a" = .ok pc
      ∧ envC3 ("NETCDF:" ++ ps ++ ":" ++ "sst") = some sampleS
      ∧ envC3 ("NETCDF:" ++ pc ++ ":" ++ "chlor_a") = some sampleC
      ∧ getCol dfC3 "Longitude" = some xcol ∧ getCol dfC3 "Latitude" = some ycol
      ∧ colFloats xcol = .ok xs ∧ colFloats ycol = .ok ys
      ∧ getCol outC3 "sst" = some ((sampleVals sampleS xs ys).map (scaleCell sstScale))
      ∧ getCol outC3 "chlor_a" = some (sampleVals sampleC xs ys)
      ∧ (∀ q, q ≠ "sst" → q ≠ "chlor_a" → q ≠ "Unnamed: 0" →
          getCol outC3 q = getCol dfC3 q) :=
  sst_scaled_once envC3 dfC3 outC3 rfl

theorem fst_filter {l : List (String × List Cell)} {n : String} :
    (l.filter (fun c => !(c.1 == n))).map Prod.fst
      = (l.map Prod.fst).filter (fun q => !(q == n)) := by
  induction l with
  | nil => rfl
  | cons c cs ih =>
    by_cases hc : c.1 = n
    · rw [List.filter_cons_of_neg (by simp [hc]), List.map_cons,
        List.filter_cons_of_neg (by simp [hc])]
      exact ih
    · rw [List.filter_cons_of_pos (by simp [hc]), List.map_cons, List.map_cons,
        List.filter_cons_of_pos (by simp [hc]), ih]

/-- Claim C5 (amended): for every well-formed input table without
preexisting `sst` or `chlor_a` columns on which `augment_df` succeeds, the
result keeps exactly the input's rows, keeps every original column other
than `Unnamed: 0` unchanged, drops `Unnamed: 0`, and appends exactly the
two new requested columns `sst` and `chlor_a`. -/
theorem augment_frame (env : String → Option (ℚ → ℚ → ℚ)) (df out : DataFrame)
    (hwf : df.WF)
    (hs : hasCol df "sst" = false)
    (hc : hasCol df "chlor_a" = false)
    (h : augment_df env df ["sst", "chlor_a"] = .ok out) :
    out.nrow = df.nrow
    ∧ out.WF
    ∧ (∀ q, q ≠ "Unnamed: 0" → q ≠ "sst" → q ≠ "chlor_a" → getCol out q = getCol df q)
    ∧ getCol out "Unnamed: 0" = none
    ∧ hasCol out "sst" = true
    ∧ hasCol out "chlor_a" = true
    ∧ out.cols.map Prod.fst
        = ((df.cols.map Prod.fst).filter (fun q => !(q == "Unnamed: 0")))
            ++ ["sst", "chlor_a"] := by
  obtain ⟨hn, hq, hwfp, hU⟩ := augment_df_ok h
  obtain ⟨ps, pc, sampleS, sampleC, xcol, ycol, xs, ys, dfA, dfB, df2,
    hps, hpc, heS, heC, hxS, hyS, hfxS, hfyS, hsetS, hsetC, hM, hD⟩ :=
    augment_two_detail h
  obtain ⟨_, _, hAself, hAne, _, hAcols, _, hAhas⟩ := setCol_ok hsetS
  obtain ⟨_, _, hBself, hBne, _, hBcols, _, _⟩ := setCol_ok hsetC
  obtain ⟨colM, hMc, _, hMself, hMne, hMfst, _, _⟩ := mulCol_ok hM
  obtain ⟨_, _, hDne, hDcols, _⟩ := dropCol_ok hD
  have hAchlor : hasCol dfA "chlor_a" = false := by
    rw [hAhas "chlor_a", hc]
    rfl
  have hsstOut : getCol out "sst" = some (colM.map (scaleCell sstScale)) := by
    rw [hDne _ (by decide), hMself]
  have hchlOut : getCol out "chlor_a" = some (sampleVals sampleC xs ys) := by
    rw [hDne _ (by decide), hMne _ (by decide), hBself]
  refine ⟨hn, hwfp hwf, hq, hU, ?_, ?_, ?_⟩
  · simp [hasCol, hsstOut]
  · simp [hasCol, hchlOut]
  · rw [hDcols, fst_filter, hMfst, hBcols hAchlor, hAcols hs]
    rw [List.map_append, List.map_append, List.filter_append, List.filter_append,
      List.append_assoc]
    rfl

/-- Survey dataframe that already carries an `sst` column, refuting the
unamended frame claim. -/
def dfC5 : DataFrame :=
  { nrow := 1,
    cols := [("Unnamed: 0", [Cell.num 0]), ("Ping_date", [Cell.str "2013-05-22"]),
             ("Longitude", [Cell.num 1]), ("Latitude", [Cell.num 2]),
             ("sst", [Cell.num 1])] }

/-- Result of `augment_df` on `dfC5`: the original `sst` values were
overwritten by the scaled samples. -/
def outC5 : DataFrame :=
  { nrow := 1,
    cols := [("Ping_date", [Cell.str "2013-05-22"]),
             ("Longitude", [Cell.num 1]), ("Latitude", [Cell.num 2]),
             ("sst", [Cell.num (3 * sstScale)]), ("chlor_a", [Cell.num 3])] }

/-- Counterexample to claim C5 as stated: on an input CSV that already has
an `sst` column, `augment_df` succeeds but that original non-index column
does not keep its values — it is overwritten by the sampled and scaled
values, so not all original columns besides `Unnamed: 0` are unchanged. -/
theorem augment_frame_counterexample :
    augment_df envC3 dfC5 ["sst", "chlor_a"] = .ok outC5
    ∧ getCol dfC5 "sst" = some [Cell.num 1]
    ∧ getCol outC5 "sst" ≠ getCol dfC5 "sst" := by
  refine ⟨rfl, rfl, ?_⟩
  intro hcon
  rw [show getCol outC5 "sst" = some [Cell.num (3 * sstScale)] from rfl,
      show getCol dfC5 "sst" = some [Cell.num 1] from rfl] at hcon
  simp only [Option.some.injEq, List.cons.injEq, and_true, Cell.num.injEq] at hcon
  norm_num [sstScale] at hcon

/-- Witness for the amended claim C5, evaluated on a one-row May table. -/
theorem augment_frame_witness :
    outC3.nrow = dfC3.nrow
    ∧ outC3.WF
    ∧ (∀ q, q ≠ "Unnamed: 0" → q ≠ "sst" → q ≠ "chlor_a" →
        getCol outC3 q = getCol dfC3 q)
    ∧ getCol outC3 "Unnamed: 0" = none
    ∧ hasCol outC3 "sst" = true
    ∧ hasCol outC3 "chlor_a" = true
    ∧ outC3.cols.map Prod.fst
        = ((dfC3.cols.map Prod.fst).filter (fun q => !(q == "Unnamed: 0")))
            ++ ["sst", "chlor_a"] :=
  augment_frame envC3 dfC3 outC3 (by decide) rfl rfl rfl

/-- Claim C9: the SST unit scaling happens unconditionally after the
variable loop, so whenever the variable list does not contain `sst` and the
input table has no `sst` column, `augment_df` cannot return a table; when
the extraction loop itself succeeds, the failure is precisely the `KeyError`
on the missing `sst` column. -/
theorem augment_missing_sst (env : String → Option (ℚ → ℚ → ℚ)) (df : DataFrame)
    (vs : List String) (hv : "sst" ∉ vs) (hs : hasCol df "sst" = false) :
    (∃ e, augment_df env df vs = .error e)
    ∧ (∀ df1, augmentLoop env vs df = .ok df1 →
        augment_df env df vs = .error (Err.keyError "sst")) := by
  have key : ∀ df1, augmentLoop env vs df = .ok df1 →
      augment_df env df vs = .error (Err.keyError "sst") := by
    intro df1 hL
    obtain ⟨_, _, hhas, _⟩ := augmentLoop_ok vs df df1 hL
    have h1 : getCol df1 "sst" = none :=
      hasCol_false_iff.mp (by rw [hhas "sst" hv, hs])
    have hmc : mulCol df1 "sst" sstScale = .error (.keyError "sst") := by
      unfold mulCol
      rw [h1]
    simp only [augment_df, hL, hmc]
  constructor
  · cases hL : augmentLoop env vs df with
    | error e => exact ⟨e, by simp only [augment_df, hL]⟩
    | ok df1 => exact ⟨_, key df1 hL⟩
  · exact key

/-- Intermediate table of the C9 witness: `dfC3` with only the `chlor_a`
column extracted. -/
def dfC9mid : DataFrame :=
  { nrow := 1,
    cols := [("Unnamed: 0", [Cell.num 0]), ("Ping_date", [Cell.str "2013-05-22"]),
             ("Longitude", [Cell.num 1]), ("Latitude", [Cell.num 2]),
             ("chlor_a", [Cell.num 3])] }

/-- Witness for claim C9: requesting only `chlor_a` makes `augment_df` fail
with the `KeyError` on the missing `sst` column even though every
extraction succeeded. -/
theorem augment_missing_sst_witness :
    augment_df envC3 dfC3 ["chlor_a"] = Except.error (Err.keyError "sst") :=
  (augment_missing_sst envC3 dfC3 ["chlor_a"] (by decide) rfl).2 dfC9mid rfl

/-- Claim C10: `augment_df` drops `Unnamed: 0` unconditionally, so on any
input table lacking that index column it fails with an error instead of
returning a table, for every variable list. -/
theorem augment_requires_index (env : String → Option (ℚ → ℚ → ℚ)) (df : DataFrame)
    (vs : List String) (hU : hasCol df "Unnamed: 0" = false) :
    ∃ e, augment_df env df vs = .error e := by
  cases hL : augmentLoop env vs df with
  | error e => exact ⟨e, by simp only [augment_df, hL]⟩
  | ok df1 =>
    obtain ⟨_, hget, _, _⟩ := augmentLoop_ok vs df df1 hL
    have h1n : getCol df1 "Unnamed: 0" = none := by
      rw [hget _ (by decide) (by decide)]
      exact hasCol_false_iff.mp hU
    cases hM : mulCol df1 "sst" sstScale with
    | error e => exact ⟨e, by simp only [augment_df, hL, hM]⟩
    | ok df2 =>
      obtain ⟨colM, _, _, _, hMne, _, _, _⟩ := mulCol_ok hM
      have h2 : getCol df2 "Unnamed: 0" = none := by
        rw [hMne _ (by decide), h1n]
      have hdc : dropCol df2 "Unnamed: 0" = .error (.keyError "Unnamed: 0") := by
        unfold dropCol
        rw [h2]
      exact ⟨Err.keyError "Unnamed: 0", by simp only [augment_df, hL, hM, hdc]⟩

/-- Survey dataframe without the `Unnamed: 0` index artifact column. -/
def dfC10 : DataFrame :=
  { nrow := 1,
    cols := [("Ping_date", [Cell.str "2013-05-22"]),
             ("Longitude", [Cell.num 1]), ("Latitude", [Cell.num 2])] }

/-- Witness for claim C10: a table without `Unnamed: 0` makes `augment_df`
fail. -/
theorem augment_requires_index_witness :
    ∃ e, augment_df envC3 dfC10 ["sst", "chlor_a"] = Except.error e :=
  augment_requires_index envC3 dfC10 ["sst", "chlor_a"] rfl

theorem poolMap_ok {f : DataFrame → Except Err DataFrame} :
    ∀ (dfs outs : List DataFrame), poolMap f dfs = .ok outs →
    outs.length = dfs.length
    ∧ ∀ i (h1 : i < dfs.length) (h2 : i < outs.length),
        f (dfs.get ⟨i, h1⟩) = .ok (outs.get ⟨i, h2⟩) := by
  intro dfs
  induction dfs with
  | nil =>
    intro outs h
    cases h
    exact ⟨rfl, fun i h1 _ => absurd h1 (Nat.not_lt_zero i)⟩
  | cons d ds ih =>
    intro outs h
    unfold poolMap at h
    split at h
    · rename_i r rs hr hrs
      cases h
      obtain ⟨hlen, hidx⟩ := ih rs hrs
      refine ⟨by simp [hlen], ?_⟩
      intro i h1 h2
      cases i with
      | zero => exact hr
      | succ j =>
        exact hidx j (Nat.lt_of_succ_lt_succ h1) (Nat.lt_of_succ_lt_succ h2)
    · cases h
    · cases h

theorem colOrFill_length {df : DataFrame} (n : String) (hwf : df.WF) :
    (colOrFill df n).length = df.nrow := by
  unfold colOrFill
  cases hg : getCol df n with
  | none => simp
  | some col => exact hwf (n, col) (alookup_mem hg)

theorem concatColumn_length {dfs : List DataFrame} (n : String)
    (hwf : ∀ df ∈ dfs, DataFrame.WF df) :
    (concatColumn dfs n).length = (dfs.map DataFrame.nrow).sum := by
  induction dfs with
  | nil => rfl
  | cons d ds ih =>
    have hC : concatColumn (d :: ds) n = colOrFill d n ++ concatColumn ds n := rfl
    rw [hC, List.length_append, colOrFill_length n (hwf d (List.mem_cons_self d ds)),
      ih (fun df hm => hwf df (List.mem_cons_of_mem d hm))]
    simp

theorem pdConcat_WF {dfs : List DataFrame}
    (hwf : ∀ df ∈ dfs, DataFrame.WF df) : (pdConcat dfs).WF := by
  intro c hc
  rcases List.mem_map.mp hc with ⟨n, _, hfa⟩
  rw [← hfa]
  exact concatColumn_length n hwf

theorem drop_append_len {α : Type} (l1 l2 : List α) (k : Nat) :
    (l1 ++ l2).drop (l1.length + k) = l2.drop k := by
  induction l1 with
  | nil => simp
  | cons a l ih => simp [Nat.succ_add, ih]

theorem take_append_len {α : Type} (l1 l2 : List α) : (l1 ++ l2).take l1.length = l1 := by
  induction l1 with
  | nil => rfl
  | cons a l ih => simp [ih]

theorem concatColumn_segment :
    ∀ (dfs : List DataFrame), (∀ df ∈ dfs, DataFrame.WF df) →
    ∀ (i : Nat) (h : i < dfs.length) (n : String) (col : List Cell),
    getCol (dfs.get ⟨i, h⟩) n = some col →
    ((concatColumn dfs n).drop (((dfs.take i).map DataFrame.nrow).sum)).take
        (dfs.get ⟨i, h⟩).nrow = col := by
  intro dfs
  induction dfs with
  | nil =>
    intro _ i h
    exact absurd h (Nat.not_lt_zero i)
  | cons d ds ih =>
    intro hwf i h n col hcol
    have hC : concatColumn (d :: ds) n = colOrFill d n ++ concatColumn ds n := rfl
    cases i with
    | zero =>
      have hcol2 : getCol d n = some col := hcol
      have hcf : colOrFill d n = col := by
        unfold colOrFill
        rw [hcol2]
      have hlen : col.length = d.nrow :=
        hwf d (List.mem_cons_self d ds) (n, col) (alookup_mem hcol2)
      have hdrop : (((d :: ds).take 0).map DataFrame.nrow).sum = 0 := rfl
      rw [hC, hcf, hdrop, List.drop_zero]
      show (col ++ concatColumn ds n).take d.nrow = col
      rw [← hlen, take_append_len]
    | succ j =>
      have hcl : (colOrFill d n).length = d.nrow :=
        colOrFill_length n (hwf d (List.mem_cons_self d ds))
      have hsum : (((d :: ds).take (j + 1)).map DataFrame.nrow).sum
          = (colOrFill d n).length + ((ds.take j).map DataFrame.nrow).sum := by
        simp [hcl]
      rw [hC, hsum, drop_append_len]
      exact ih (fun df hm => hwf df (List.mem_cons_of_mem d hm)) j
        (Nat.lt_of_succ_lt_succ h) n col hcol

/-- Claim C6: for every input list on which the parallel map succeeds, the
concatenated table's row count is the sum of the row counts of the per-file
augmented tables; each augmented table keeps its source's row count and
leaves the surviving source columns unchanged in order, and each augmented
table's columns appear as the contiguous block at its offset inside the
concatenated columns. -/
theorem concat_preserves_rows (env : String → Option (ℚ → ℚ → ℚ))
    (dfs outs : List DataFrame)
    (hwf : ∀ df ∈ dfs, DataFrame.WF df)
    (h : poolMap (fun df => augment_df env df ["sst", "chlor_a"]) dfs = .ok outs) :
    (pdConcat outs).nrow = (outs.map DataFrame.nrow).sum
    ∧ (pdConcat outs).WF
    ∧ outs.length = dfs.length
    ∧ (∀ i (h1 : i < dfs.length) (h2 : i < outs.length),
        (outs.get ⟨i, h2⟩).nrow = (dfs.get ⟨i, h1⟩).nrow
        ∧ ∀ q, q ≠ "Unnamed: 0" → q ≠ "sst" → q ≠ "chlor_a" →
            getCol (outs.get ⟨i, h2⟩) q = getCol (dfs.get ⟨i, h1⟩) q)
    ∧ (∀ i (h2 : i < outs.length) (n : String) (col : List Cell),
        getCol (outs.get ⟨i, h2⟩) n = some col →
        ((concatColumn outs n).drop (((outs.take i).map DataFrame.nrow).sum)).take
            (outs.get ⟨i, h2⟩).nrow = col) := by
  obtain ⟨hlen, hidx⟩ := poolMap_ok dfs outs h
  have hwfo : ∀ o ∈ outs, DataFrame.WF o := by
    intro o ho
    obtain ⟨⟨i, h2⟩, rfl⟩ := List.mem_iff_get.mp ho
    have h1 : i < dfs.length := by
      rw [← hlen]
      exact h2
    exact (augment_df_ok (hidx i h1 h2)).2.2.1 (hwf _ (List.get_mem dfs _ _))
  refine ⟨rfl, pdConcat_WF hwfo, hlen, ?_, ?_⟩
  · intro i h1 h2
    obtain ⟨hn, hq, _, _⟩ := augment_df_ok (hidx i h1 h2)
    exact ⟨hn, hq⟩
  · intro i h2 n col hcol
    exact concatColumn_segment outs hwfo i h2 n col hcol

/-- Witness for claim C6, evaluated on a one-file batch. -/
theorem concat_preserves_rows_witness :
    (pdConcat [outC3]).nrow = ([outC3].map DataFrame.nrow).sum
    ∧ (pdConcat [outC3]).WF
    ∧ [outC3].length = [dfC3].length
    ∧ (∀ i (h1 : i < [dfC3].length) (h2 : i < [outC3].length),
        ([outC3].get ⟨i, h2⟩).nrow = ([dfC3].get ⟨i, h1⟩).nrow
        ∧ ∀ q, q ≠ "Unnamed: 0" → q ≠ "sst" → q ≠ "chlor_a" →
            getCol ([outC3].get ⟨i, h2⟩) q = getCol ([dfC3].get ⟨i, h1⟩) q)
    ∧ (∀ i (h2 : i < [outC3].length) (n : String) (col : List Cell),
        getCol ([outC3].get ⟨i, h2⟩) n = some col →
        ((concatColumn [outC3] n).drop ((([outC3].take i).map DataFrame.nrow).sum)).take
            ([outC3].get ⟨i, h2⟩).nrow = col) :=
  concat_preserves_rows envC3 [dfC3] [outC3] (by decide) rfl

/-- Claim C7: the remote-source mapping has exactly ten entries, the five
months may..sep crossed with the two variables, and for every supported
(month, variable) pair the file name the fetcher writes, `<key>.nc`, is
exactly the basename of the path `get_raster_path` resolves for that
pair. -/
theorem urls_cover_raster_paths :
    urls.map Prod.fst
      = ["may_2013_sst", "jun_2013_sst", "jul_2013_sst", "aug_2013_sst", "sep_2013_sst",
         "may_2013_chlor_a", "jun_2013_chlor_a", "jul_2013_chlor_a", "aug_2013_chlor_a",
         "sep_2013_chlor_a"]
    ∧ urls.length = 10
    ∧ ∀ m, m ∈ [5, 6, 7, 8, 9] → ∀ v, v ∈ ["sst", "chlor_a"] →
        ∃ key, key ∈ urls.map Prod.fst
        ∧ ∃ p, get_raster_path_month m v = .ok p
        ∧ basename (fetchPath key) = key ++ ".nc"
        ∧ basename (fetchPath key) = basename p := by
  refine ⟨rfl, rfl, ?_⟩
  intro m hm v hv
  fin_cases hm <;> fin_cases hv
  · exact ⟨"may_2013_sst", by decide, "data/modis/may_2013_sst.nc", rfl, rfl, rfl⟩
  · exact ⟨"may_2013_chlor_a", by decide, "data/modis/may_2013_chlor_a.nc", rfl, rfl, rfl⟩
  · exact ⟨"jun_2013_sst", by decide, "data/modis/jun_2013_sst.nc", rfl, rfl, rfl⟩
  · exact ⟨"jun_2013_chlor_a", by decide, "data/modis/jun_2013_chlor_a.nc", rfl, rfl, rfl⟩
  · exact ⟨"jul_2013_sst", by decide, "data/modis/jul_2013_sst.nc", rfl, rfl, rfl⟩
  · exact ⟨"jul_2013_chlor_a", by decide, "data/modis/jul_2013_chlor_a.nc", rfl, rfl, rfl⟩
  · exact ⟨"aug_2013_sst", by decide, "data/modis/aug_2013_sst.nc", rfl, rfl, rfl⟩
  · exact ⟨"aug_2013_chlor_a", by decide, "data/modis/aug_2013_chlor_a.nc", rfl, rfl, rfl⟩
  · exact ⟨"sep_2013_sst", by decide, "data/modis/sep_2013_sst.nc", rfl, rfl, rfl⟩
  · exact ⟨"sep_2013_chlor_a", by decide, "data/modis/sep_2013_chlor_a.nc", rfl, rfl, rfl⟩

/-- Witness for claim C7 at the pair (5, sst). -/
theorem urls_cover_raster_paths_witness :
    ∃ key, key ∈ urls.map Prod.fst
    ∧ ∃ p, get_raster_path_month 5 "sst" = .ok p
    ∧ basename (fetchPath key) = key ++ ".nc"
    ∧ basename (fetchPath key) = basename p :=
  urls_cover_raster_paths.2.2 5 (by decide) "sst" (by decide)

theorem downloadAll_preserve (net : String → Option String) (p : String) :
    ∀ (l : List (String × String)) (fs : FS), p ∉ l.map (fun e => fetchPath e.1) →
    readFile (downloadAll net fs l).1 p = readFile fs p := by
  intro l
  induction l with
  | nil =>
    intro fs _
    rfl
  | cons e rest ih =>
    obtain ⟨k, u⟩ := e
    intro fs hp
    simp only [List.map_cons, List.mem_cons, not_or] at hp
    obtain ⟨hp1, hp2⟩ := hp
    cases hn : net u with
    | none => simp only [downloadAll, hn]
    | some dta =>
      simp only [downloadAll, hn]
      rw [ih _ hp2]
      show alookup ((fetchPath k, dta) :: _) p = readFile fs p
      simp only [alookup]
      rw [if_neg (fun hh : fetchPath k = p => hp1 hh.symm)]
      exact alookup_filter_ne hp1

theorem downloadAll_success (net : String → Option String) :
    ∀ (l : List (String × String)) (fs : FS),
    (l.map (fun e => fetchPath e.1)).Nodup →
    (downloadAll net fs l).2 = true →
    ∀ ku ∈ l, ∃ d, net ku.2 = some d
      ∧ readFile (downloadAll net fs l).1 (fetchPath ku.1) = some d := by
  intro l
  induction l with
  | nil =>
    intro fs _ _ ku hku
    exact absurd hku (List.not_mem_nil ku)
  | cons e rest ih =>
    obtain ⟨k, u⟩ := e
    intro fs hnd hsucc ku hku
    simp only [List.map_cons, List.nodup_cons] at hnd
    obtain ⟨hnotin, hndr⟩ := hnd
    cases hn : net u with
    | none =>
      simp only [downloadAll, hn] at hsucc
      cases hsucc
    | some dta =>
      simp only [downloadAll, hn] at hsucc ⊢
      rcases List.mem_cons.mp hku with hk | hk
      · subst hk
        refine ⟨dta, hn, ?_⟩
        rw [downloadAll_preserve net (fetchPath k) rest _ hnotin]
        show alookup ((fetchPath k, dta) :: _) (fetchPath k) = some dta
        simp [alookup]
      · exact ih _ hndr hsucc ku hk

theorem downloadAll_failure (net : String → Option String) :
    ∀ (l : List (String × String)) (fs : FS),
    (downloadAll net fs l).2 = false →
    ∃ pre k u post, l = pre ++ (k, u) :: post ∧ net u = none
      ∧ (∀ e ∈ pre, ∃ d, net e.2 = some d)
      ∧ (downloadAll net fs l).1 = (downloadAll net fs pre).1 := by
  intro l
  induction l with
  | nil =>
    intro fs h
    simp [downloadAll] at h
  | cons e rest ih =>
    obtain ⟨k, u⟩ := e
    intro fs hfail
    cases hn : net u with
    | none =>
      refine ⟨[], k, u, rest, rfl, hn, fun e he => absurd he (List.not_mem_nil e), ?_⟩
      simp only [downloadAll, hn]
    | some dta =>
      simp only [downloadAll, hn] at hfail ⊢
      obtain ⟨pre, k2, u2, post, hsplit, hn2, hpre, heq⟩ :=
        ih (writeFile fs (fetchPath k) dta) hfail
      refine ⟨(k, u) :: pre, k2, u2, post, by rw [hsplit]; rfl, hn2, ?_, ?_⟩
      · intro e he
        rcases List.mem_cons.mp he with he1 | he1
        · subst he1
          exact ⟨dta, hn⟩
        · exact hpre e he1
      · simp only [downloadAll, hn]
        exact heq

/-- Claim C8: the fetcher first ensures the destination directory exists
(creating it only when absent, idempotently) and then processes the url
entries strictly sequentially; on success every entry's bytes are at
`data/modis/<key>.nc`, and on a network failure the failing entry aborts
the batch with only the preceding prefix downloaded. -/
theorem fetcher_behavior (net : String → Option String) (fs0 : FS) :
    ncdf_dir ∈ (ensureDir fs0 ncdf_dir).dirs
    ∧ (ncdf_dir ∈ fs0.dirs → ensureDir fs0 ncdf_dir = fs0)
    ∧ ensureDir (ensureDir fs0 ncdf_dir) ncdf_dir = ensureDir fs0 ncdf_dir
    ∧ ((runFetcher net fs0).2 = true →
        ∀ ku ∈ urls, ∃ d, net ku.2 = some d
          ∧ readFile (runFetcher net fs0).1 (fetchPath ku.1) = some d)
    ∧ ((runFetcher net fs0).2 = false →
        ∃ pre k u post, urls = pre ++ (k, u) :: post ∧ net u = none
          ∧ (∀ e ∈ pre, ∃ d, net e.2 = some d)
          ∧ (runFetcher net fs0).1 = (downloadAll net (ensureDir fs0 ncdf_dir) pre).1) := by
  refine ⟨?_, ?_, ?_, ?_, ?_⟩
  · unfold ensureDir
    by_cases hd : ncdf_dir ∈ fs0.dirs
    · rw [if_pos hd]
      exact hd
    · rw [if_neg hd]
      exact List.mem_cons_self _ _
  · intro hd
    unfold ensureDir
    rw [if_pos hd]
  · by_cases hd : ncdf_dir ∈ fs0.dirs
    · simp [ensureDir, hd]
    · simp [ensureDir, hd]
  · intro hsucc ku hku
    exact downloadAll_success net urls (ensureDir fs0 ncdf_dir) (by decide) hsucc ku hku
  · intro hfail
    exact downloadAll_failure net urls (ensureDir fs0 ncdf_dir) hfail

/-- A network oracle that answers every request with the same bytes. -/
def netD : String → Option String := fun _ => some "DATA"

/-- An empty local filesystem. -/
def fsEmpty : FS := { dirs := [], files := [] }

/-- Witness for claim C8: after a fully successful run from an empty
filesystem, the first entry's bytes sit at `data/modis/may_2013_sst.nc`. -/
theorem fetcher_behavior_witness :
    ∃ d, netD "https://oceandata.sci.gsfc.nasa.gov/cgi/getfile/T20131212013151.L3m_MO_SST_sst_4km.nc" = some d
      ∧ readFile (runFetcher netD fsEmpty).1 (fetchPath "may_2013_sst") = some d :=
  (fetcher_behavior netD fsEmpty).2.2.2.1 rfl
    ("may_2013_sst",
     "https://oceandata.sci.gsfc.nasa.gov/cgi/getfile/T20131212013151.L3m_MO_SST_sst_4km.nc")
    (by decide)

end Sonar
